import Mathlib

/-!
# dnsp: the DNS filtering proxy of `server.go`

A shallow embedding of `NewServer` and of the handler closure it installs
(`src/server.go`), followed by the properties of the construction and of the
per-query handling flow.

Conventions of the embedding

* Effects are made explicit.  The handler returns the list of effects it
  performed, in program order (`Event`), next to the state of the outside world
  after the run.  The constructor returns the list of loader invocations it made
  (`LoadCall`) next to its Go result pair `(*Server, error)`.
* `(*dns.Client).Exchange` belongs to the DNS library and performs network I/O:
  it is a parameter `Exchange` that reads and updates an abstract world state
  `σ`, so the outcome of an exchange may depend on everything that happened
  before it.  Its Go result `(in, rtt, err)` is `Except.error err` when
  `err != nil` and `Except.ok (in, rtt)` otherwise; the handler reads `in` and
  `rtt` only on the second branch.  Messages are values: an exchange does not
  modify the query it is handed.
* `(*Server).filter`, `loadWhitelist` and `loadBlacklist` are functions of the
  package that live outside `server.go`; `NewServer` and the handler take them as
  parameters.  A loader mutates the map it is given and returns a Go `error`, so
  it is a function from the map (and the path) to the updated map and an
  `Option Error`, `none` being `nil`.
* `dns.HandleFailed` and `ResponseWriter.WriteMsg` belong to the DNS library;
  a call is recorded as an event carrying the message it was given.
-/

namespace Dnsp

/-! ## Data model -/

/-- Go `error` values, represented by their message. -/
abbrev Error := String

/-- Go `time.Duration` (a signed count of nanoseconds). -/
abbrev Duration := Int

/-- The `dns.Question` of the DNS library: name, type and class. -/
structure Question where
  Name : String
  Qtype : Nat
  Qclass : Nat
deriving DecidableEq, Repr

/-- The `dns.MsgHdr` of the DNS library. -/
structure MsgHdr where
  Id : Nat
  Response : Bool
  Opcode : Nat
  Authoritative : Bool
  Truncated : Bool
  RecursionDesired : Bool
  RecursionAvailable : Bool
  Zero : Bool
  AuthenticatedData : Bool
  CheckingDisabled : Bool
  Rcode : Nat
deriving DecidableEq, Repr

/-- A resource record of the DNS library, kept in presentation form. -/
structure RR where
  Name : String
  Rrtype : Nat
  Class : Nat
  Ttl : Nat
  Rdata : String
deriving DecidableEq, Repr

/-- The `dns.Msg` of the DNS library: header, compression flag and the four sections. -/
structure Msg where
  MsgHdr : MsgHdr
  Compress : Bool
  Question : List Question
  Answer : List RR
  Ns : List RR
  Extra : List RR
deriving DecidableEq, Repr

/-- A compiled `regexp.Regexp`, represented by its source expression. -/
structure Regexp where
  expr : String
deriving DecidableEq, Repr

/-- Origin tag of a list entry. -/
inductive Origin where
  | Whitelisted
  | Blacklisted
deriving DecidableEq, Repr

/-- Modelled from the spec: the declaration of the type `hosts` is not in `server.go`.
The spec describes it as "one combined mapping from DomainName to origin tag"; it
is a Go map, here a finite-support function with `none` for an absent key. -/
abbrev hosts := String → Option Origin

/-- The empty map literal `hosts{}`. -/
def hosts.empty : hosts := fun _ => none

/-- Go map assignment `h[d] = t`: the binding of `d` is created or overwritten. -/
def hosts.set (h : hosts) (d : String) (t : Origin) : hosts :=
  fun x => if x = d then some t else h x

/-- The fields of `Options` that `NewServer` reads (the declaration of the type is
not in `server.go`). -/
structure Options where
  Net : String
  Bind : String
  Whitelist : String
  Blacklist : String
  Resolve : List String
deriving DecidableEq, Repr

/-- One observable effect of the handler closure. -/
inductive Event where
  /-- The call `s.filter(r.Question)`, with the question list it was given. -/
  | filterCall (qs : List Question)
  /-- The call `s.c.Exchange(r, addr)`. -/
  | exchange (m : Msg) (addr : String)
  /-- The statement `log.Printf("dnsp: exchange failed: %s", err)`. -/
  | logFailed (err : Error)
  /-- The statement `log.Printf("dnsp: exchange successful, rtt=%s", rtt)`. -/
  | logSuccessful (rtt : Duration)
  /-- The call `w.WriteMsg(m)`. -/
  | writeMsg (m : Msg)
  /-- The call `dns.HandleFailed(w, m)`. -/
  | handleFailed (m : Msg)
deriving DecidableEq, Repr

/-- What one call of `Exchange` returns: `err`, or `in` and `rtt`. -/
abbrev Outcome := Except Error (Msg × Duration)

/-- The type of `(*dns.Client).Exchange` over the world state `σ`. -/
abbrev ExchangeFn (σ : Type) := σ → Msg → String → Outcome × σ

/-- The type of a `dns.Handler` over the world state `σ`. -/
abbrev HandlerFn (σ : Type) := σ → Msg → σ × List Event

/-- The type of `(*Server).filter`, a method that reads the policy fields of its
receiver: `white`, `hosts`, `rxWhitelist`, `rxBlacklist`. -/
abbrev FilterFn := Bool → hosts → List Regexp → List Regexp → List Question → List Question

/-- The type of `loadWhitelist` and `loadBlacklist`: the map after the call and the
returned `error`. -/
abbrev LoaderFn := hosts → String → hosts × Option Error

/-- The `dns.Server` fields that `NewServer` sets. -/
structure DnsServer (σ : Type) where
  Net : String
  Addr : String
  Handler : HandlerFn σ

/-- The `Server` struct of `server.go`; the client `c` is represented by its
`Exchange` method. -/
structure Server (σ : Type) where
  c : ExchangeFn σ
  s : DnsServer σ
  white : Bool
  hosts : hosts
  rxWhitelist : List Regexp
  rxBlacklist : List Regexp

/-- One loader invocation made by `NewServer`, with the path it was given. -/
inductive LoadCall where
  | whitelist (path : String)
  | blacklist (path : String)
deriving DecidableEq, Repr

/-! ## The handler closure (`server.go`, lines 51-76) -/

/-- The loop `for _, addr := range o.Resolve` (lines 65-74) together with the
statement that follows it (line 75), reached when the range is exhausted. -/
def proxyLoop {σ : Type} (Exchange : ExchangeFn σ) (r : Msg) :
    List String → σ → σ × List Event
  | [], w => (w, [Event.handleFailed r])
  | addr :: rest, w =>
    match Exchange w r addr with
    | (Except.error err, w1) =>
      let res := proxyLoop Exchange r rest w1
      (res.1, Event.exchange r addr :: Event.logFailed err :: res.2)
    | (Except.ok (inMsg, rtt), w1) =>
      (w1, [Event.exchange r addr, Event.logSuccessful rtt, Event.writeMsg inMsg])

/-- The body of the handler closure.  `filter` stands for `s.filter`, `Exchange`
for `s.c.Exchange` and `Resolve` for `o.Resolve`.  The assignment
`r.Question = s.filter(r.Question)` updates the query in place, so every later
use of `r` sees the filtered question list. -/
def handler {σ : Type} (filter : List Question → List Question) (Exchange : ExchangeFn σ)
    (Resolve : List String) (w : σ) (r : Msg) : σ × List Event :=
  if Resolve.length = 0 then
    (w, [Event.handleFailed r])
  else
    let r1 : Msg := { r with Question := filter r.Question }
    if r1.Question.length = 0 then
      (w, [Event.filterCall r.Question, Event.writeMsg r1])
    else
      let res := proxyLoop Exchange r1 Resolve w
      (res.1, Event.filterCall r.Question :: res.2)

/-! ## The constructor (`server.go`, lines 31-78) -/

/-- The constructor `NewServer`.  The result is the Go pair `(*Server, error)` as
an `Except`, next to the loader calls made.  The struct literal leaves
`rxWhitelist` and `rxBlacklist` at their zero value, the nil slice. -/
def NewServer {σ : Type} (filter : FilterFn) (Exchange : ExchangeFn σ)
    (loadWhitelist loadBlacklist : LoaderFn) (o : Options) :
    Except Error (Server σ) × List LoadCall :=
  -- lines 32-40: the struct literal
  let white : Bool := decide (o.Whitelist ≠ "")
  let h0 : hosts := hosts.empty
  -- lines 41-45: the whitelist step, its map, error and loader calls
  let wl : (hosts × Option Error) × List LoadCall :=
    if o.Whitelist ≠ "" then
      (loadWhitelist h0 o.Whitelist, [LoadCall.whitelist o.Whitelist])
    else ((h0, none), [])
  match wl.1.2 with
  | some err => (Except.error err, wl.2)
  | none =>
    -- lines 46-50: the blacklist step, on the map left by the whitelist step
    let bl : (hosts × Option Error) × List LoadCall :=
      if o.Blacklist ≠ "" then
        (loadBlacklist wl.1.1 o.Blacklist, [LoadCall.blacklist o.Blacklist])
      else ((wl.1.1, none), [])
    match bl.1.2 with
    | some err => (Except.error err, wl.2 ++ bl.2)
    | none =>
      -- lines 51-77: the handler is installed and the server returned
      let h : hosts := bl.1.1
      (Except.ok
        { c := Exchange
          s := { Net := o.Net
                 Addr := o.Bind
                 Handler := handler (filter white h [] []) Exchange o.Resolve }
          white := white
          hosts := h
          rxWhitelist := []
          rxBlacklist := [] },
       wl.2 ++ bl.2)

/-! ## Observations on a run -/

/-- The addresses contacted, one per `Exchange` call, in the order of the calls. -/
def contacted : List Event → List String
  | [] => []
  | Event.exchange _ addr :: t => addr :: contacted t
  | _ :: t => contacted t

/-- The messages handed to `Exchange`, one per call, in the order of the calls. -/
def sent : List Event → List Msg
  | [] => []
  | Event.exchange m _ :: t => m :: sent t
  | _ :: t => sent t

/-- The question lists handed to `s.filter`, one per call. -/
def filterCalls : List Event → List (List Question)
  | [] => []
  | Event.filterCall qs :: t => qs :: filterCalls t
  | _ :: t => filterCalls t

/-- The responses handed to the caller: the `w.WriteMsg` and `dns.HandleFailed`
events of a run, in order. -/
def responses : List Event → List Event
  | [] => []
  | Event.writeMsg m :: t => Event.writeMsg m :: responses t
  | Event.handleFailed m :: t => Event.handleFailed m :: responses t
  | _ :: t => responses t

/-- The outcome that each position of the address list yields when the addresses
are exchanged with one after the other, starting in world `w`.  Up to and
including the first success these are the outcomes the handler observes; beyond it
they are what the later addresses would have returned. -/
def outcomes {σ : Type} (Exchange : ExchangeFn σ) (m : Msg) : List String → σ → List Outcome
  | [], _ => []
  | addr :: rest, w => (Exchange w m addr).1 :: outcomes Exchange m rest (Exchange w m addr).2

/-- An outcome with `err == nil`. -/
def succeeded : Outcome → Bool
  | Except.ok _ => true
  | Except.error _ => false

/-! ## The list loaders, from the spec -/

/-- Modelled from the spec: `loadWhitelist` is not in `server.go`.  Per the spec a
policy source is parsed into domain strings (`readList`, which fails with a load
error on a malformed source), each name is normalized before insertion, and the
entries are held in the combined mapping under their origin tag. -/
def loadWhitelist (normalize : String → String) (readList : String → Except Error (List String)) :
    LoaderFn :=
  fun h path =>
    match readList path with
    | Except.error err => (h, some err)
    | Except.ok ds => (ds.foldl (fun m d => hosts.set m (normalize d) Origin.Whitelisted) h, none)

/-- Modelled from the spec: `loadBlacklist` is not in `server.go`.  It is the
counterpart of `loadWhitelist` for the blacklist source, storing each entry under
the tag `Blacklisted`. -/
def loadBlacklist (normalize : String → String) (readList : String → Except Error (List String)) :
    LoaderFn :=
  fun h path =>
    match readList path with
    | Except.error err => (h, some err)
    | Except.ok ds => (ds.foldl (fun m d => hosts.set m (normalize d) Origin.Blacklisted) h, none)

/-! ## A concrete deployment, used to exercise the statements -/

/-- A query for `good.com.` and `other.com.`. -/
def exQuery : Msg :=
  { MsgHdr :=
      { Id := 7, Response := false, Opcode := 0, Authoritative := false, Truncated := false,
        RecursionDesired := true, RecursionAvailable := false, Zero := false,
        AuthenticatedData := false, CheckingDisabled := false, Rcode := 0 }
    Compress := false
    Question := [⟨"good.com.", 1, 1⟩, ⟨"other.com.", 1, 1⟩]
    Answer := []
    Ns := []
    Extra := [] }

/-- A filter that keeps the questions for `good.com.`. -/
def exFilter (qs : List Question) : List Question :=
  qs.filter (fun q => decide (q.Name = "good.com."))

/-- A filter that denies every question. -/
def exDenyAll (_ : List Question) : List Question := []

/-- The answer of upstream `B`. -/
def exAnswer (m : Msg) : Msg :=
  { m with
    MsgHdr := { m.MsgHdr with Response := true, RecursionAvailable := true }
    Answer := [⟨"good.com.", 1, 1, 300, "192.0.2.1"⟩] }

/-- A network in which only upstream `B` answers; the world counts the exchanges. -/
def exExchange : ExchangeFn Nat :=
  fun w m addr =>
    if addr = "B" then (Except.ok (exAnswer m, 5), w + 1)
    else (Except.error "timeout", w + 1)

/-- A network in which no upstream answers. -/
def exDown : ExchangeFn Nat :=
  fun w _ _ => (Except.error "timeout", w + 1)

/-- The query as forwarded: only the question for `good.com.` is left. -/
def exForwarded : Msg := { exQuery with Question := [⟨"good.com.", 1, 1⟩] }

/-- Policy sources: `white.txt` and `black.txt` both list `both.com`; `bad.txt` is malformed. -/
def exReadList (path : String) : Except Error (List String) :=
  if path = "white.txt" then Except.ok ["good.com", "Both.com"]
  else if path = "black.txt" then Except.ok ["bad.com", "both.com"]
  else Except.error "malformed list"

/-- Lower-casing as normalization. -/
def exNormalize (d : String) : String := String.mk (d.data.map Char.toLower)

/-- A policy-reading filter: in whitelisting mode keep the whitelisted names, otherwise
drop the blacklisted ones. -/
def exPolicyFilter : FilterFn :=
  fun white h _ _ qs =>
    qs.filter (fun q =>
      if white then decide (h q.Name = some Origin.Whitelisted)
      else decide (h q.Name ≠ some Origin.Blacklisted))

/-- Options naming both policy sources and two upstreams. -/
def exOptions : Options :=
  { Net := "udp", Bind := ":53", Whitelist := "white.txt", Blacklist := "black.txt",
    Resolve := ["A", "B"] }

/-- Options naming no policy source. -/
def exOptionsNoLists : Options :=
  { Net := "udp", Bind := ":53", Whitelist := "", Blacklist := "", Resolve := ["A", "B"] }

/-- Options whose blacklist source is malformed. -/
def exOptionsBadBlacklist : Options :=
  { Net := "udp", Bind := ":53", Whitelist := "white.txt", Blacklist := "bad.txt",
    Resolve := ["A", "B"] }

/-- The map that the two loaders leave behind for `exOptions`. -/
def exHosts : hosts :=
  (loadBlacklist exNormalize exReadList
    (loadWhitelist exNormalize exReadList hosts.empty "white.txt").1 "black.txt").1

/-- The server that `exNewServer` returns. -/
def exServer : Server Nat :=
  { c := exExchange
    s := { Net := "udp"
           Addr := ":53"
           Handler := handler (exPolicyFilter true exHosts [] []) exExchange ["A", "B"] }
    white := true
    hosts := exHosts
    rxWhitelist := []
    rxBlacklist := [] }

/-- The server built from `exOptionsNoLists`. -/
def exServerNoLists : Server Nat :=
  { c := exExchange
    s := { Net := "udp"
           Addr := ":53"
           Handler := handler (exPolicyFilter false hosts.empty [] []) exExchange ["A", "B"] }
    white := false
    hosts := hosts.empty
    rxWhitelist := []
    rxBlacklist := [] }

/-! ## The proxy loop -/

/-- Unfolding of the loop at an address whose exchange fails. -/
theorem proxyLoop_cons_error {σ : Type} (Exchange : ExchangeFn σ) (m : Msg) (addr : String)
    (rest : List String) (w w1 : σ) (err : Error)
    (h : Exchange w m addr = (Except.error err, w1)) :
    proxyLoop Exchange m (addr :: rest) w =
      ((proxyLoop Exchange m rest w1).1,
        Event.exchange m addr :: Event.logFailed err :: (proxyLoop Exchange m rest w1).2) := by
  simp [proxyLoop, h]

/-- Unfolding of the loop at an address whose exchange succeeds. -/
theorem proxyLoop_cons_ok {σ : Type} (Exchange : ExchangeFn σ) (m : Msg) (addr : String)
    (rest : List String) (w w1 : σ) (inMsg : Msg) (rtt : Duration)
    (h : Exchange w m addr = (Except.ok (inMsg, rtt), w1)) :
    proxyLoop Exchange m (addr :: rest) w =
      (w1, [Event.exchange m addr, Event.logSuccessful rtt, Event.writeMsg inMsg]) := by
  simp [proxyLoop, h]

/-- The loop contacts the addresses up to and including the first one that succeeds. -/
theorem contacted_proxyLoop {σ : Type} (Exchange : ExchangeFn σ) (m : Msg) (addrs : List String)
    (w : σ) :
    contacted (proxyLoop Exchange m addrs w).2 =
      addrs.take ((outcomes Exchange m addrs w).findIdx succeeded + 1) := by
  induction addrs generalizing w with
  | nil => simp [proxyLoop, contacted]
  | cons addr rest ih =>
    rcases h : Exchange w m addr with ⟨out, w1⟩
    cases out with
    | error err =>
      rw [proxyLoop_cons_error Exchange m addr rest w w1 err h]
      simp [contacted, outcomes, h, succeeded, List.findIdx_cons, ih]
    | ok val =>
      obtain ⟨inMsg, rtt⟩ := val
      rw [proxyLoop_cons_ok Exchange m addr rest w w1 inMsg rtt h]
      simp [contacted, outcomes, h, succeeded, List.findIdx_cons]

/-- Every exchange of the loop is given the same message. -/
theorem sent_proxyLoop {σ : Type} (Exchange : ExchangeFn σ) (m : Msg) (addrs : List String)
    (w : σ) :
    sent (proxyLoop Exchange m addrs w).2 =
      List.replicate (contacted (proxyLoop Exchange m addrs w).2).length m := by
  induction addrs generalizing w with
  | nil => simp [proxyLoop, contacted, sent]
  | cons addr rest ih =>
    rcases h : Exchange w m addr with ⟨out, w1⟩
    cases out with
    | error err =>
      rw [proxyLoop_cons_error Exchange m addr rest w w1 err h]
      simp [contacted, sent, ih, List.replicate_succ]
    | ok val =>
      obtain ⟨inMsg, rtt⟩ := val
      rw [proxyLoop_cons_ok Exchange m addr rest w w1 inMsg rtt h]
      simp [contacted, sent]

/-- When some position succeeds, the loop relays the response of the lowest such
position and nothing else. -/
theorem proxyLoop_first_ok {σ : Type} (Exchange : ExchangeFn σ) (m : Msg) (addrs : List String)
    (w : σ)
    (hex : ∃ (k : Nat) (x : Msg × Duration),
      (outcomes Exchange m addrs w)[k]? = some (Except.ok x)) :
    ∃ (i : Nat) (inMsg : Msg) (rtt : Duration),
      (outcomes Exchange m addrs w)[i]? = some (Except.ok (inMsg, rtt)) ∧
      (∀ j : Nat, j < i →
        ∃ err : Error, (outcomes Exchange m addrs w)[j]? = some (Except.error err)) ∧
      responses (proxyLoop Exchange m addrs w).2 = [Event.writeMsg inMsg] := by
  induction addrs generalizing w with
  | nil =>
    obtain ⟨k, x, hk⟩ := hex
    simp [outcomes] at hk
  | cons addr rest ih =>
    rcases h : Exchange w m addr with ⟨out, w1⟩
    cases out with
    | error err =>
      obtain ⟨k, x, hk⟩ := hex
      cases k with
      | zero => simp [outcomes, h] at hk
      | succ k =>
        have hk1 : (outcomes Exchange m rest w1)[k]? = some (Except.ok x) := by
          simpa [outcomes, h] using hk
        obtain ⟨i, inMsg, rtt, hi, hlt, hresp⟩ := ih w1 ⟨k, x, hk1⟩
        refine ⟨i + 1, inMsg, rtt, ?_, ?_, ?_⟩
        · simpa [outcomes, h] using hi
        · intro j hj
          cases j with
          | zero => exact ⟨err, by simp [outcomes, h]⟩
          | succ j =>
            obtain ⟨e, he⟩ := hlt j (by omega)
            exact ⟨e, by simpa [outcomes, h] using he⟩
        · rw [proxyLoop_cons_error Exchange m addr rest w w1 err h]
          simpa [responses] using hresp
    | ok val =>
      obtain ⟨inMsg, rtt⟩ := val
      refine ⟨0, inMsg, rtt, ?_, ?_, ?_⟩
      · simp [outcomes, h]
      · intro j hj
        omega
      · rw [proxyLoop_cons_ok Exchange m addr rest w w1 inMsg rtt h]
        simp [responses]

/-- When every position fails, the loop ends in `dns.HandleFailed` and relays nothing. -/
theorem proxyLoop_all_failed {σ : Type} (Exchange : ExchangeFn σ) (m : Msg)
    (addrs : List String) (w : σ)
    (hall : ∀ out ∈ outcomes Exchange m addrs w, ∃ err, out = Except.error err) :
    responses (proxyLoop Exchange m addrs w).2 = [Event.handleFailed m] ∧
      contacted (proxyLoop Exchange m addrs w).2 = addrs := by
  induction addrs generalizing w with
  | nil => simp [proxyLoop, responses, contacted]
  | cons addr rest ih =>
    rcases h : Exchange w m addr with ⟨out, w1⟩
    cases out with
    | error err =>
      have hrest : ∀ out ∈ outcomes Exchange m rest w1, ∃ e, out = Except.error e := by
        intro out hout
        exact hall out (by simp [outcomes, h, hout])
      obtain ⟨h1, h2⟩ := ih w1 hrest
      rw [proxyLoop_cons_error Exchange m addr rest w w1 err h]
      simp [responses, contacted, h1, h2]
    | ok val =>
      obtain ⟨e, he⟩ := hall (Except.ok val) (by simp [outcomes, h])
      cases he

/-- When every position fails, the loop is a run of failed exchanges, one per address
in order, followed by `dns.HandleFailed` as its last effect. -/
theorem proxyLoop_all_failed_shape {σ : Type} (Exchange : ExchangeFn σ) (m : Msg)
    (addrs : List String) (w : σ)
    (hall : ∀ out ∈ outcomes Exchange m addrs w, ∃ err, out = Except.error err) :
    ∃ front : List Event,
      (proxyLoop Exchange m addrs w).2 = front ++ [Event.handleFailed m] ∧
        contacted front = addrs ∧ responses front = [] := by
  induction addrs generalizing w with
  | nil => exact ⟨[], by simp [proxyLoop, responses, contacted]⟩
  | cons addr rest ih =>
    rcases h : Exchange w m addr with ⟨out, w1⟩
    cases out with
    | error err =>
      have hrest : ∀ out ∈ outcomes Exchange m rest w1, ∃ e, out = Except.error e := by
        intro out hout
        exact hall out (by simp [outcomes, h, hout])
      obtain ⟨front, h1, h2, h3⟩ := ih w1 hrest
      refine ⟨Event.exchange m addr :: Event.logFailed err :: front, ?_, ?_, ?_⟩
      · rw [proxyLoop_cons_error Exchange m addr rest w w1 err h]
        simp [h1]
      · simp [contacted, h2]
      · simp [responses, h3]
    | ok val =>
      obtain ⟨e, he⟩ := hall (Except.ok val) (by simp [outcomes, h])
      cases he

/-- The outcome list has one entry per address. -/
theorem outcomes_length {σ : Type} (Exchange : ExchangeFn σ) (m : Msg) (addrs : List String)
    (w : σ) : (outcomes Exchange m addrs w).length = addrs.length := by
  induction addrs generalizing w with
  | nil => simp [outcomes]
  | cons addr rest ih => simp [outcomes, ih]

/-- Unfolding of the handler on the forwarding path. -/
theorem handler_forward {σ : Type} (filter : List Question → List Question)
    (Exchange : ExchangeFn σ) (Resolve : List String) (w : σ) (r : Msg)
    (hres : Resolve ≠ []) (hq : filter r.Question ≠ []) :
    handler filter Exchange Resolve w r =
      ((proxyLoop Exchange { r with Question := filter r.Question } Resolve w).1,
        Event.filterCall r.Question ::
          (proxyLoop Exchange { r with Question := filter r.Question } Resolve w).2) := by
  simp [handler, hres, hq]

/-- A `w.WriteMsg` event of a run is one of its responses. -/
theorem mem_responses_writeMsg (t : List Event) (m : Msg) (h : Event.writeMsg m ∈ t) :
    Event.writeMsg m ∈ responses t := by
  induction t with
  | nil => simp at h
  | cons e t ih =>
    cases e <;> simp [responses] at h ⊢ <;> first | exact ih h | skip
    all_goals
      rcases h with h | h
      · exact Or.inl h
      · exact Or.inr (ih h)

/-- The addresses the handler contacts when the filtered question list is non-empty. -/
theorem contacted_handler {σ : Type} (filter : List Question → List Question)
    (Exchange : ExchangeFn σ) (Resolve : List String) (w : σ) (r : Msg)
    (hq : filter r.Question ≠ []) :
    contacted (handler filter Exchange Resolve w r).2 =
      Resolve.take
        ((outcomes Exchange { r with Question := filter r.Question } Resolve w).findIdx
          succeeded + 1) := by
  by_cases hres : Resolve = []
  · subst hres
    simp [handler, contacted]
  · rw [handler_forward filter Exchange Resolve w r hres hq]
    simpa [contacted] using
      contacted_proxyLoop Exchange { r with Question := filter r.Question } Resolve w

/-! ## The handler: relaying, probing order, failure -/

/-- C1: with a non-empty upstream list and a non-empty filtered question list, if
the exchange at some position of the list succeeds, then there is a lowest
succeeding position (every earlier position fails) and the only response the
handler gives the caller is `w.WriteMsg` of the message that this position
returned, whatever the later positions would have returned. -/
theorem C1_first_success_relayed {σ : Type} (filter : List Question → List Question)
    (Exchange : ExchangeFn σ) (Resolve : List String) (w : σ) (r : Msg)
    (hres : Resolve ≠ []) (hq : filter r.Question ≠ [])
    (hex : ∃ (k : Nat) (x : Msg × Duration),
      (outcomes Exchange { r with Question := filter r.Question } Resolve w)[k]? =
        some (Except.ok x)) :
    ∃ (i : Nat) (inMsg : Msg) (rtt : Duration),
      (outcomes Exchange { r with Question := filter r.Question } Resolve w)[i]? =
        some (Except.ok (inMsg, rtt)) ∧
      (∀ j : Nat, j < i →
        ∃ err : Error,
          (outcomes Exchange { r with Question := filter r.Question } Resolve w)[j]? =
            some (Except.error err)) ∧
      responses (handler filter Exchange Resolve w r).2 = [Event.writeMsg inMsg] := by
  obtain ⟨i, inMsg, rtt, hi, hlt, hresp⟩ :=
    proxyLoop_first_ok Exchange { r with Question := filter r.Question } Resolve w hex
  refine ⟨i, inMsg, rtt, hi, hlt, ?_⟩
  rw [handler_forward filter Exchange Resolve w r hres hq]
  simpa [responses] using hresp

/-- C2: when the filtered question list is non-empty, the addresses the handler
contacts are, in order, the configured list cut after the first position whose
exchange succeeds (the whole list when none does); the number of exchanges never
exceeds the length of the list, and nothing beyond a succeeding position is
contacted. -/
theorem C2_contacts_stop_at_first_success {σ : Type}
    (filter : List Question → List Question) (Exchange : ExchangeFn σ)
    (Resolve : List String) (w : σ) (r : Msg) (hq : filter r.Question ≠ []) :
    contacted (handler filter Exchange Resolve w r).2 =
        Resolve.take
          ((outcomes Exchange { r with Question := filter r.Question } Resolve w).findIdx
            succeeded + 1) ∧
      (contacted (handler filter Exchange Resolve w r).2).length ≤ Resolve.length ∧
      ∀ (i : Nat) (x : Msg × Duration),
        (outcomes Exchange { r with Question := filter r.Question } Resolve w)[i]? =
            some (Except.ok x) →
          (contacted (handler filter Exchange Resolve w r).2).length ≤ i + 1 := by
  have key := contacted_handler filter Exchange Resolve w r hq
  refine ⟨key, ?_, ?_⟩
  · rw [key]
    simp [List.length_take]
  · intro i x hi
    rw [key, List.length_take]
    obtain ⟨hlen, hget⟩ := List.getElem?_eq_some_iff.mp hi
    have hle : (outcomes Exchange { r with Question := filter r.Question } Resolve w).findIdx
        succeeded ≤ i := by
      by_contra hcon
      have hnot := List.not_of_lt_findIdx (Nat.lt_of_not_le hcon)
      rw [hget] at hnot
      simp [succeeded] at hnot
    omega

/-- C3: with a non-empty upstream list and a non-empty filtered question list, if
the exchange at every position fails, the only response the handler gives is
`dns.HandleFailed` for the query (which by then carries the filtered questions),
every configured address has been contacted once and in order, no message is
relayed with `w.WriteMsg`, and the failure response is the last effect of the run,
after all the exchanges. -/
theorem C3_all_failed_gives_failure {σ : Type} (filter : List Question → List Question)
    (Exchange : ExchangeFn σ) (Resolve : List String) (w : σ) (r : Msg)
    (hres : Resolve ≠ []) (hq : filter r.Question ≠ [])
    (hall : ∀ out ∈ outcomes Exchange { r with Question := filter r.Question } Resolve w,
      ∃ err, out = Except.error err) :
    responses (handler filter Exchange Resolve w r).2 =
        [Event.handleFailed { r with Question := filter r.Question }] ∧
      contacted (handler filter Exchange Resolve w r).2 = Resolve ∧
      (∀ m : Msg, Event.writeMsg m ∉ (handler filter Exchange Resolve w r).2) ∧
      ∃ front : List Event,
        (handler filter Exchange Resolve w r).2 =
            front ++ [Event.handleFailed { r with Question := filter r.Question }] ∧
          contacted front = Resolve ∧ responses front = [] := by
  obtain ⟨h1, h2⟩ :=
    proxyLoop_all_failed Exchange { r with Question := filter r.Question } Resolve w hall
  obtain ⟨front, hf1, hf2, hf3⟩ :=
    proxyLoop_all_failed_shape Exchange { r with Question := filter r.Question } Resolve w hall
  rw [handler_forward filter Exchange Resolve w r hres hq]
  refine ⟨by simpa [responses] using h1, by simpa [contacted] using h2, ?_,
    ⟨Event.filterCall r.Question :: front, by simp [hf1], by simpa [contacted] using hf2,
      by simpa [responses] using hf3⟩⟩
  intro m hm
  have hmem : Event.writeMsg m ∈
      responses (proxyLoop Exchange { r with Question := filter r.Question } Resolve w).2 :=
    mem_responses_writeMsg _ m (by simpa using hm)
  rw [h1] at hmem
  simp at hmem

/-- C4: with an empty upstream list the handler performs exactly one effect,
`dns.HandleFailed` on the query as received, for every filter: the filter is not
called, no exchange is made and the world is left as it was. -/
theorem C4_no_upstream_fails_unfiltered {σ : Type} (filter : List Question → List Question)
    (Exchange : ExchangeFn σ) (w : σ) (r : Msg) :
    handler filter Exchange [] w r = (w, [Event.handleFailed r]) ∧
      filterCalls (handler filter Exchange [] w r).2 = [] ∧
      contacted (handler filter Exchange [] w r).2 = [] := by
  simp [handler, filterCalls, contacted]

/-- C5: with a non-empty upstream list, if the filter returns no question the
handler calls the filter and then `w.WriteMsg` on the query with an empty question
list; it makes no exchange and gives no failure response. -/
theorem C5_empty_after_filtering {σ : Type} (filter : List Question → List Question)
    (Exchange : ExchangeFn σ) (Resolve : List String) (w : σ) (r : Msg)
    (hres : Resolve ≠ []) (hq : filter r.Question = []) :
    handler filter Exchange Resolve w r =
        (w, [Event.filterCall r.Question, Event.writeMsg { r with Question := [] }]) ∧
      contacted (handler filter Exchange Resolve w r).2 = [] ∧
      responses (handler filter Exchange Resolve w r).2 =
        [Event.writeMsg { r with Question := [] }] := by
  simp [handler, hres, hq, contacted, responses]

/-- C8: with a non-empty upstream list and a non-empty filtered question list, at
least one exchange is made, and every exchange is given the same message: the
inbound query whose question list is the output of the filter and whose other
fields are those of the inbound query. -/
theorem C8_forwarded_message {σ : Type} (filter : List Question → List Question)
    (Exchange : ExchangeFn σ) (Resolve : List String) (w : σ) (r : Msg)
    (hres : Resolve ≠ []) (hq : filter r.Question ≠ []) :
    sent (handler filter Exchange Resolve w r).2 ≠ [] ∧
      sent (handler filter Exchange Resolve w r).2 =
        List.replicate (contacted (handler filter Exchange Resolve w r).2).length
          { r with Question := filter r.Question } ∧
      ∀ m ∈ sent (handler filter Exchange Resolve w r).2,
        m.Question = filter r.Question ∧ m.MsgHdr = r.MsgHdr ∧ m.Compress = r.Compress ∧
          m.Answer = r.Answer ∧ m.Ns = r.Ns ∧ m.Extra = r.Extra := by
  have hsent : sent (handler filter Exchange Resolve w r).2 =
      List.replicate (contacted (handler filter Exchange Resolve w r).2).length
        { r with Question := filter r.Question } := by
    rw [handler_forward filter Exchange Resolve w r hres hq]
    simpa [sent, contacted] using
      sent_proxyLoop Exchange { r with Question := filter r.Question } Resolve w
  have hpos : 0 < (contacted (handler filter Exchange Resolve w r).2).length := by
    rw [contacted_handler filter Exchange Resolve w r hq]
    have : 0 < Resolve.length := List.length_pos.mpr hres
    rw [List.length_take]
    omega
  refine ⟨?_, hsent, ?_⟩
  · rw [hsent]
    intro hnil
    have hlen := congrArg List.length hnil
    rw [List.length_replicate, List.length_nil] at hlen
    omega
  · intro m hm
    rw [hsent] at hm
    have hm1 := List.eq_of_mem_replicate hm
    subst hm1
    simp

/-! ## The constructor -/

/-- What a successful construction fixes: both loads that were due succeeded, and
the fields of the server are determined by the options and the loaders. -/
theorem NewServer_ok {σ : Type} (filter : FilterFn) (Exchange : ExchangeFn σ)
    (lw lb : LoaderFn) (o : Options) (s : Server σ) (t : List LoadCall)
    (h : NewServer filter Exchange lw lb o = (Except.ok s, t)) :
    s.white = decide (o.Whitelist ≠ "") ∧
      s.hosts =
        (if o.Blacklist ≠ "" then
          (lb (if o.Whitelist ≠ "" then (lw hosts.empty o.Whitelist).1 else hosts.empty)
            o.Blacklist).1
        else (if o.Whitelist ≠ "" then (lw hosts.empty o.Whitelist).1 else hosts.empty)) ∧
      s.rxWhitelist = [] ∧ s.rxBlacklist = [] := by
  unfold NewServer at h
  by_cases hw : o.Whitelist = "" <;> by_cases hb : o.Blacklist = ""
  · simp [hw, hb] at h
    obtain ⟨hs, -⟩ := h
    subst hs
    simp [hw, hb]
  · rcases hlb : lb hosts.empty o.Blacklist with ⟨h2, e2⟩
    cases e2 <;> simp [hw, hb, hlb] at h
    obtain ⟨hs, -⟩ := h
    subst hs
    simp [hw, hb, hlb]
  · rcases hlw : lw hosts.empty o.Whitelist with ⟨h1, e1⟩
    cases e1 <;> simp [hw, hb, hlw] at h
    obtain ⟨hs, -⟩ := h
    subst hs
    simp [hw, hb, hlw]
  · rcases hlw : lw hosts.empty o.Whitelist with ⟨h1, e1⟩
    cases e1 <;> simp [hw, hb, hlw] at h
    rcases hlb : lb h1 o.Blacklist with ⟨h2, e2⟩
    cases e2 <;> simp [hlb] at h
    obtain ⟨hs, -⟩ := h
    subst hs
    simp [hw, hb, hlw, hlb]

/-- The handler installed in a server that `NewServer` returns is the closure over
that server and the options: it filters with the policy fields of the server,
exchanges through its client and walks `o.Resolve`. -/
theorem NewServer_handler {σ : Type} (filter : FilterFn) (Exchange : ExchangeFn σ)
    (lw lb : LoaderFn) (o : Options) (s : Server σ) (t : List LoadCall)
    (h : NewServer filter Exchange lw lb o = (Except.ok s, t)) :
    s.s.Handler =
      handler (filter s.white s.hosts s.rxWhitelist s.rxBlacklist) s.c o.Resolve := by
  unfold NewServer at h
  by_cases hw : o.Whitelist = "" <;> by_cases hb : o.Blacklist = ""
  · simp [hw, hb] at h
    obtain ⟨hs, -⟩ := h
    subst hs
    simp [hw]
  · rcases hlb : lb hosts.empty o.Blacklist with ⟨h2, e2⟩
    cases e2 <;> simp [hw, hb, hlb] at h
    obtain ⟨hs, -⟩ := h
    subst hs
    simp [hw]
  · rcases hlw : lw hosts.empty o.Whitelist with ⟨h1, e1⟩
    cases e1 <;> simp [hw, hb, hlw] at h
    obtain ⟨hs, -⟩ := h
    subst hs
    simp [hw]
  · rcases hlw : lw hosts.empty o.Whitelist with ⟨h1, e1⟩
    cases e1 <;> simp [hw, hb, hlw] at h
    rcases hlb : lb h1 o.Blacklist with ⟨h2, e2⟩
    cases e2 <;> simp [hlb] at h
    obtain ⟨hs, -⟩ := h
    subst hs
    simp [hw]

/-- C6: a server returned by `NewServer` is in whitelisting mode exactly when the
whitelist path is a non-empty string, and in blacklisting mode exactly when that
path is empty; the blacklist path plays no part. -/
theorem C6_white_iff_whitelist_path {σ : Type} (filter : FilterFn) (Exchange : ExchangeFn σ)
    (lw lb : LoaderFn) (o : Options) (s : Server σ) (t : List LoadCall)
    (h : NewServer filter Exchange lw lb o = (Except.ok s, t)) :
    (s.white = true ↔ o.Whitelist ≠ "") ∧ (s.white = false ↔ o.Whitelist = "") := by
  obtain ⟨hwhite, -⟩ := NewServer_ok filter Exchange lw lb o s t h
  rw [hwhite]
  by_cases hw : o.Whitelist = "" <;> simp [hw]

/-- C10: a server returned by `NewServer` has an empty regex whitelist and an empty
regex blacklist, for all loaders and all options. -/
theorem C10_regex_lists_empty {σ : Type} (filter : FilterFn) (Exchange : ExchangeFn σ)
    (lw lb : LoaderFn) (o : Options) (s : Server σ) (t : List LoadCall)
    (h : NewServer filter Exchange lw lb o = (Except.ok s, t)) :
    s.rxWhitelist = [] ∧ s.rxBlacklist = [] := by
  obtain ⟨-, -, h1, h2⟩ := NewServer_ok filter Exchange lw lb o s t h
  exact ⟨h1, h2⟩

/-- C7: `NewServer` returns the error `err` (and no server) exactly when the
whitelist path is non-empty and loading the whitelist returns `err`, or the
whitelist step went through (empty path, or a load without error), the blacklist
path is non-empty and loading the blacklist into the map left by the whitelist
step returns `err`.  The whitelist loader is called only for a non-empty path,
the blacklist loader only for a non-empty path after the whitelist step went
through; with both paths empty the construction succeeds and calls no loader. -/
theorem C7_load_failure_is_fatal {σ : Type} (filter : FilterFn) (Exchange : ExchangeFn σ)
    (lw lb : LoaderFn) (o : Options) :
    (∀ err : Error,
      (NewServer filter Exchange lw lb o).1 = Except.error err ↔
        (o.Whitelist ≠ "" ∧ (lw hosts.empty o.Whitelist).2 = some err) ∨
        ((o.Whitelist = "" ∨ (lw hosts.empty o.Whitelist).2 = none) ∧ o.Blacklist ≠ "" ∧
          (lb (if o.Whitelist ≠ "" then (lw hosts.empty o.Whitelist).1 else hosts.empty)
            o.Blacklist).2 = some err)) ∧
      (NewServer filter Exchange lw lb o).2 =
        (if o.Whitelist ≠ "" then [LoadCall.whitelist o.Whitelist] else []) ++
          (if (o.Whitelist = "" ∨ (lw hosts.empty o.Whitelist).2 = none) ∧ o.Blacklist ≠ ""
            then [LoadCall.blacklist o.Blacklist] else []) ∧
      (o.Whitelist = "" → o.Blacklist = "" →
        ∃ s : Server σ, NewServer filter Exchange lw lb o = (Except.ok s, [])) := by
  unfold NewServer
  by_cases hw : o.Whitelist = "" <;> by_cases hb : o.Blacklist = ""
  · simp [hw, hb]
  · rcases hlb : lb hosts.empty o.Blacklist with ⟨h2, e2⟩
    cases e2 <;> simp [hw, hb, hlb]
  · rcases hlw : lw hosts.empty o.Whitelist with ⟨h1, e1⟩
    cases e1 <;> simp [hw, hb, hlw]
  · rcases hlw : lw hosts.empty o.Whitelist with ⟨h1, e1⟩
    cases e1 with
    | none =>
      rcases hlb : lb h1 o.Blacklist with ⟨h2, e2⟩
      cases e2 <;> simp [hw, hb, hlw, hlb]
    | some e =>
      simp [hw, hb, hlw]

/-! ## The combined mapping -/

/-- Storing entries under a tag keeps every binding that already carries the tag. -/
theorem foldl_set_keeps (normalize : String → String) (t : Origin) (ds : List String)
    (h : hosts) (x : String) (hx : h x = some t) :
    (ds.foldl (fun m d => hosts.set m (normalize d) t) h) x = some t := by
  induction ds generalizing h with
  | nil => simpa using hx
  | cons a ds ih =>
    rw [List.foldl_cons]
    apply ih
    unfold hosts.set
    by_cases hxa : x = normalize a <;> simp [hxa, hx]

/-- After a list is stored under a tag, each of its entries carries the tag. -/
theorem foldl_set_of_mem (normalize : String → String) (t : Origin) (ds : List String)
    (h : hosts) (d : String) (hd : d ∈ ds) :
    (ds.foldl (fun m d => hosts.set m (normalize d) t) h) (normalize d) = some t := by
  induction ds generalizing h with
  | nil => simp at hd
  | cons a ds ih =>
    rw [List.foldl_cons]
    rcases List.mem_cons.mp hd with hda | hda
    · subst hda
      apply foldl_set_keeps
      simp [hosts.set]
    · exact ih _ hda

/-- Storing a list leaves the binding of every name outside the list as it was. -/
theorem foldl_set_of_not_mem (normalize : String → String) (t : Origin) (ds : List String)
    (h : hosts) (x : String) (hx : ∀ d ∈ ds, normalize d ≠ x) :
    (ds.foldl (fun m d => hosts.set m (normalize d) t) h) x = h x := by
  induction ds generalizing h with
  | nil => simp
  | cons a ds ih =>
    rw [List.foldl_cons, ih _ (fun d hd => hx d (List.mem_cons_of_mem a hd))]
    have hne : x ≠ normalize a := fun heq => hx a (List.mem_cons_self a ds) heq.symm
    simp [hosts.set, hne]

/-- C9: with the loaders as the spec describes them, a server built from a whitelist
source and a blacklist source holds the entries of both in its one `hosts` map: a
name that is (up to normalization) in both sources is tagged `Blacklisted`, and a
whitelist entry that is not in the blacklist source is tagged `Whitelisted`. -/
theorem C9_blacklisted_takes_precedence {σ : Type} (filter : FilterFn)
    (Exchange : ExchangeFn σ) (normalize : String → String)
    (readList : String → Except Error (List String)) (o : Options) (s : Server σ)
    (t : List LoadCall) (wl bl : List String)
    (h : NewServer filter Exchange (loadWhitelist normalize readList)
      (loadBlacklist normalize readList) o = (Except.ok s, t))
    (hw : o.Whitelist ≠ "") (hb : o.Blacklist ≠ "")
    (hwl : readList o.Whitelist = Except.ok wl) (hbl : readList o.Blacklist = Except.ok bl) :
    (∀ dw ∈ wl, ∀ db ∈ bl, normalize dw = normalize db →
        s.hosts (normalize dw) = some Origin.Blacklisted) ∧
      (∀ dw ∈ wl, (∀ db ∈ bl, normalize db ≠ normalize dw) →
        s.hosts (normalize dw) = some Origin.Whitelisted) := by
  obtain ⟨-, hhosts, -, -⟩ := NewServer_ok filter Exchange _ _ o s t h
  rw [hhosts]
  simp only [hw, hb, ne_eq, not_false_eq_true, if_true, loadWhitelist, loadBlacklist, hwl, hbl]
  constructor
  · intro dw _ db hdb heq
    rw [heq]
    exact foldl_set_of_mem normalize Origin.Blacklisted bl _ db hdb
  · intro dw hdw hnot
    rw [foldl_set_of_not_mem normalize Origin.Blacklisted bl _ (normalize dw) hnot]
    exact foldl_set_of_mem normalize Origin.Whitelisted wl _ dw hdw

/-! ## The statements on the concrete deployment -/

/-- Instance of C1: upstream `A` fails, `B` answers, `C` is never asked. -/
theorem C1_first_success_relayed_witness :
    responses (handler exFilter exExchange ["A", "B", "C"] 0 exQuery).2 =
        [Event.writeMsg (exAnswer exForwarded)] ∧
      ∃ (i : Nat) (inMsg : Msg) (rtt : Duration),
        (outcomes exExchange { exQuery with Question := exFilter exQuery.Question }
          ["A", "B", "C"] 0)[i]? = some (Except.ok (inMsg, rtt)) ∧
        (∀ j : Nat, j < i →
          ∃ err : Error,
            (outcomes exExchange { exQuery with Question := exFilter exQuery.Question }
              ["A", "B", "C"] 0)[j]? = some (Except.error err)) ∧
        responses (handler exFilter exExchange ["A", "B", "C"] 0 exQuery).2 =
          [Event.writeMsg inMsg] :=
  ⟨by decide,
    C1_first_success_relayed exFilter exExchange ["A", "B", "C"] 0 exQuery (by decide)
      (by decide) ⟨1, (exAnswer exForwarded, 5), rfl⟩⟩

/-- The outcomes on the network in which no upstream answers. -/
theorem exDown_outcomes :
    outcomes exDown { exQuery with Question := exFilter exQuery.Question } ["A", "B"] 0 =
      [Except.error "timeout", Except.error "timeout"] := rfl

/-- The construction from `exOptions` succeeds with `exServer`, after both loads. -/
theorem exNewServer_eq :
    NewServer exPolicyFilter exExchange (loadWhitelist exNormalize exReadList)
        (loadBlacklist exNormalize exReadList) exOptions =
      (Except.ok exServer, [LoadCall.whitelist "white.txt", LoadCall.blacklist "black.txt"]) :=
  rfl

/-- The construction from `exOptionsNoLists` succeeds with `exServerNoLists`. -/
theorem exNewServerNoLists_eq :
    NewServer exPolicyFilter exExchange (loadWhitelist exNormalize exReadList)
        (loadBlacklist exNormalize exReadList) exOptionsNoLists =
      (Except.ok exServerNoLists, []) :=
  rfl

/-- Instance of C2: `A` fails and `B` answers, so `A` and `B` are contacted and `C` is not. -/
theorem C2_contacts_stop_at_first_success_witness :
    exFilter exQuery.Question ≠ [] ∧
      contacted (handler exFilter exExchange ["A", "B", "C"] 0 exQuery).2 = ["A", "B"] ∧
      (contacted (handler exFilter exExchange ["A", "B", "C"] 0 exQuery).2).length ≤
        ["A", "B", "C"].length :=
  ⟨by decide, by decide,
    (C2_contacts_stop_at_first_success exFilter exExchange ["A", "B", "C"] 0 exQuery
      (by decide)).2.1⟩

/-- Instance of C3: both upstreams fail; the failure response follows two exchanges. -/
theorem C3_all_failed_gives_failure_witness :
    responses (handler exFilter exDown ["A", "B"] 0 exQuery).2 =
        [Event.handleFailed exForwarded] ∧
      contacted (handler exFilter exDown ["A", "B"] 0 exQuery).2 = ["A", "B"] ∧
      (∀ m : Msg, Event.writeMsg m ∉ (handler exFilter exDown ["A", "B"] 0 exQuery).2) ∧
      ∃ front : List Event,
        (handler exFilter exDown ["A", "B"] 0 exQuery).2 =
            front ++ [Event.handleFailed { exQuery with Question := exFilter exQuery.Question }] ∧
          contacted front = ["A", "B"] ∧ responses front = [] :=
  C3_all_failed_gives_failure exFilter exDown ["A", "B"] 0 exQuery (by decide) (by decide)
    (by
      intro out hout
      rw [exDown_outcomes] at hout
      simp at hout
      exact ⟨"timeout", hout⟩)

/-- Instance of C5: every question is denied; the emptied query is written back. -/
theorem C5_empty_after_filtering_witness :
    handler exDenyAll exExchange ["A", "B"] 0 exQuery =
        (0, [Event.filterCall exQuery.Question, Event.writeMsg { exQuery with Question := [] }]) ∧
      contacted (handler exDenyAll exExchange ["A", "B"] 0 exQuery).2 = [] ∧
      responses (handler exDenyAll exExchange ["A", "B"] 0 exQuery).2 =
        [Event.writeMsg { exQuery with Question := [] }] :=
  C5_empty_after_filtering exDenyAll exExchange ["A", "B"] 0 exQuery (by decide) rfl

/-- Instance of C8: both exchanges are given the query reduced to `good.com.`. -/
theorem C8_forwarded_message_witness :
    sent (handler exFilter exExchange ["A", "B", "C"] 0 exQuery).2 = [exForwarded, exForwarded] ∧
      sent (handler exFilter exExchange ["A", "B", "C"] 0 exQuery).2 ≠ [] ∧
      sent (handler exFilter exExchange ["A", "B", "C"] 0 exQuery).2 =
        List.replicate (contacted (handler exFilter exExchange ["A", "B", "C"] 0 exQuery).2).length
          { exQuery with Question := exFilter exQuery.Question } :=
  ⟨by decide,
    (C8_forwarded_message exFilter exExchange ["A", "B", "C"] 0 exQuery (by decide)
      (by decide)).1,
    (C8_forwarded_message exFilter exExchange ["A", "B", "C"] 0 exQuery (by decide)
      (by decide)).2.1⟩

/-- Instance of C6: with a whitelist path the server is in whitelisting mode, with
no policy source it is in blacklisting mode. -/
theorem C6_white_iff_whitelist_path_witness :
    exServer.white = true ∧ exServerNoLists.white = false ∧
      (exServer.white = true ↔ exOptions.Whitelist ≠ "") ∧
      (exServerNoLists.white = false ↔ exOptionsNoLists.Whitelist = "") :=
  ⟨rfl, rfl,
    (C6_white_iff_whitelist_path exPolicyFilter exExchange (loadWhitelist exNormalize exReadList)
      (loadBlacklist exNormalize exReadList) exOptions exServer _ exNewServer_eq).1,
    (C6_white_iff_whitelist_path exPolicyFilter exExchange (loadWhitelist exNormalize exReadList)
      (loadBlacklist exNormalize exReadList) exOptionsNoLists exServerNoLists _
      exNewServerNoLists_eq).2⟩

/-- Instance of C10: both sources were loaded and the regex lists are empty. -/
theorem C10_regex_lists_empty_witness :
    exServer.rxWhitelist = [] ∧ exServer.rxBlacklist = [] :=
  C10_regex_lists_empty exPolicyFilter exExchange (loadWhitelist exNormalize exReadList)
    (loadBlacklist exNormalize exReadList) exOptions exServer _ exNewServer_eq

/-- Instance of C7: with no policy source the construction succeeds and calls no
loader; with a malformed blacklist source it returns the loader's error. -/
theorem C7_load_failure_is_fatal_witness :
    (∃ s : Server Nat,
      NewServer exPolicyFilter exExchange (loadWhitelist exNormalize exReadList)
        (loadBlacklist exNormalize exReadList) exOptionsNoLists = (Except.ok s, [])) ∧
      (NewServer exPolicyFilter exExchange (loadWhitelist exNormalize exReadList)
        (loadBlacklist exNormalize exReadList) exOptionsBadBlacklist).1 =
          Except.error "malformed list" :=
  ⟨(C7_load_failure_is_fatal exPolicyFilter exExchange (loadWhitelist exNormalize exReadList)
      (loadBlacklist exNormalize exReadList) exOptionsNoLists).2.2 rfl rfl,
    ((C7_load_failure_is_fatal exPolicyFilter exExchange (loadWhitelist exNormalize exReadList)
      (loadBlacklist exNormalize exReadList) exOptionsBadBlacklist).1 "malformed list").mpr
      (Or.inr ⟨Or.inr rfl, by decide, rfl⟩)⟩

/-- Instance of C9: `both.com` is in both sources and ends up `Blacklisted`;
`good.com` is in the whitelist source only and ends up `Whitelisted`. -/
theorem C9_blacklisted_takes_precedence_witness :
    exServer.hosts (exNormalize "Both.com") = some Origin.Blacklisted ∧
      exServer.hosts (exNormalize "good.com") = some Origin.Whitelisted :=
  ⟨(C9_blacklisted_takes_precedence exPolicyFilter exExchange exNormalize exReadList exOptions
      exServer _ ["good.com", "Both.com"] ["bad.com", "both.com"] exNewServer_eq (by decide)
      (by decide) rfl rfl).1 "Both.com" (by decide) "both.com" (by decide) (by decide),
    (C9_blacklisted_takes_precedence exPolicyFilter exExchange exNormalize exReadList exOptions
      exServer _ ["good.com", "Both.com"] ["bad.com", "both.com"] exNewServer_eq (by decide)
      (by decide) rfl rfl).2 "good.com" (by decide) (by decide)⟩

end Dnsp
